import Mathlib

/-!
Verification development for the `safe-expr-eval` expression language
(tokenizer `src/tokenizer.ts`, evaluator and facade `src/parser.ts`).

Modelling conventions:
* JavaScript numbers are modelled by `JSNum`: an exact rational together
  with the special values `NaN`, `Infinity` and `-Infinity`.  Double
  rounding and negative zero are abstracted away; every concrete value
  appearing in the theorems below is exactly representable, and the
  operations agree with IEEE double arithmetic on those inputs.
* JavaScript's `parseFloat` is modelled for decimal literals (optional
  sign, digits, fractional part, exponent); the `Infinity` spelling and
  hexadecimal forms are outside the fragment the program can produce.
* Thrown JavaScript errors are modelled with `Except`; the throw sites of
  the evaluator become the constructors of `EvalErr`.
* The evaluator's mutual recursion is bounded by an explicit fuel
  parameter (`EvalErr.outOfFuel` marks exhaustion); the entry points pass
  a budget that is never reached by the token streams they are run on.
* `console.warn` diagnostics are side effects invisible to callers and
  are not modelled.
-/

namespace SafeExprEval

/-- A JavaScript number: an exact rational, `NaN`, `Infinity` or
`-Infinity`. -/
inductive JSNum where
  | num (q : ℚ)
  | nan
  | inf
  | negInf
deriving DecidableEq, Repr

namespace JSNum

/-- JavaScript unary negation on numbers. -/
def neg : JSNum → JSNum
  | num q => num (-q)
  | nan => nan
  | inf => negInf
  | negInf => inf

/-- JavaScript `+` on numbers. -/
def add : JSNum → JSNum → JSNum
  | num a, num b => num (a + b)
  | nan, _ => nan
  | _, nan => nan
  | inf, negInf => nan
  | negInf, inf => nan
  | inf, _ => inf
  | _, inf => inf
  | negInf, _ => negInf
  | _, negInf => negInf

/-- JavaScript `-` on numbers. -/
def sub (a b : JSNum) : JSNum := add a (neg b)

/-- JavaScript `*` on numbers. -/
def mul : JSNum → JSNum → JSNum
  | num a, num b => num (a * b)
  | nan, _ => nan
  | _, nan => nan
  | inf, num b => if b = 0 then nan else if 0 < b then inf else negInf
  | num a, inf => if a = 0 then nan else if 0 < a then inf else negInf
  | negInf, num b => if b = 0 then nan else if 0 < b then negInf else inf
  | num a, negInf => if a = 0 then nan else if 0 < a then negInf else inf
  | inf, inf => inf
  | inf, negInf => negInf
  | negInf, inf => negInf
  | negInf, negInf => inf

/-- JavaScript `/` on numbers (division by zero yields a signed infinity
or `NaN`; negative zero is not distinguished). -/
def div : JSNum → JSNum → JSNum
  | num a, num b =>
      if b = 0 then (if a = 0 then nan else if 0 < a then inf else negInf)
      else num (a / b)
  | nan, _ => nan
  | _, nan => nan
  | inf, num b => if 0 ≤ b then inf else negInf
  | negInf, num b => if 0 ≤ b then negInf else inf
  | num _, inf => num 0
  | num _, negInf => num 0
  | inf, inf => nan
  | inf, negInf => nan
  | negInf, inf => nan
  | negInf, negInf => nan

/-- JavaScript `%` (remainder truncated toward zero, sign of the
dividend). -/
def mod : JSNum → JSNum → JSNum
  | num a, num b =>
      if b = 0 then nan
      else
        let q := a / b
        let t : ℤ := if q < 0 then q.ceil else q.floor
        num (a - b * t)
  | nan, _ => nan
  | _, nan => nan
  | inf, _ => nan
  | negInf, _ => nan
  | num a, inf => num a
  | num a, negInf => num a

/-- JavaScript `<` on numbers (`false` whenever `NaN` is involved). -/
def lt : JSNum → JSNum → Bool
  | num a, num b => decide (a < b)
  | nan, _ => false
  | _, nan => false
  | inf, _ => false
  | negInf, negInf => false
  | negInf, _ => true
  | num _, inf => true
  | num _, negInf => false

/-- JavaScript `<=` on numbers (`false` whenever `NaN` is involved). -/
def le : JSNum → JSNum → Bool
  | num a, num b => decide (a ≤ b)
  | nan, _ => false
  | _, nan => false
  | inf, inf => true
  | inf, _ => false
  | negInf, _ => true
  | num _, inf => true
  | num _, negInf => false

/-- JavaScript numeric equality (`NaN` is equal to nothing, including
itself). -/
def numEq : JSNum → JSNum → Bool
  | num a, num b => decide (a = b)
  | inf, inf => true
  | negInf, negInf => true
  | _, _ => false

end JSNum

/-- A runtime value of the expression language: number, string or
boolean (`string | number | boolean` in the source). -/
inductive Value where
  | num (n : JSNum)
  | str (s : String)
  | bool (b : Bool)
deriving DecidableEq, Repr

/-- Digits of a decimal literal read as a natural number. -/
def digitsToNat (ds : List Char) : Nat :=
  ds.foldl (fun acc c => acc * 10 + (c.toNat - '0'.toNat)) 0

/-- JavaScript `parseFloat` on the character list of a string: skip
leading whitespace, optional sign, then the longest prefix of the form
`digits [. digits] [e sign digits]`; if no digit is found the result is
`NaN`.  (`Infinity` and hexadecimal spellings are outside the fragment
this program feeds to `parseFloat`.) -/
def parseFloat (cs0 : List Char) : JSNum :=
  let cs1 := cs0.dropWhile Char.isWhitespace
  let signAndRest : ℚ × List Char :=
    match cs1 with
    | '-' :: r => (-1, r)
    | '+' :: r => (1, r)
    | _ => (1, cs1)
  let sign := signAndRest.1
  let cs2 := signAndRest.2
  let ip := cs2.takeWhile Char.isDigit
  let cs3 := cs2.dropWhile Char.isDigit
  let fracAndRest : List Char × List Char :=
    match cs3 with
    | '.' :: r => (r.takeWhile Char.isDigit, r.dropWhile Char.isDigit)
    | _ => ([], cs3)
  let fp := fracAndRest.1
  let cs4 := fracAndRest.2
  if ip.isEmpty && fp.isEmpty then .nan
  else
    let mant : ℚ := (digitsToNat ip : ℚ) + (digitsToNat fp : ℚ) / (10 : ℚ) ^ fp.length
    let e : ℤ :=
      match cs4 with
      | c :: r =>
          if c = 'e' ∨ c = 'E' then
            let esAndRest : ℤ × List Char :=
              match r with
              | '-' :: r2 => (-1, r2)
              | '+' :: r2 => (1, r2)
              | _ => (1, r)
            let ed := esAndRest.2.takeWhile Char.isDigit
            if ed.isEmpty then 0 else esAndRest.1 * (digitsToNat ed : ℤ)
          else 0
      | [] => 0
    .num (sign * mant * (10 : ℚ) ^ e)

/-- JavaScript `ToNumber` on a string (used by loose equality): the
trimmed string must be a complete decimal literal; the empty string is
`0`; anything else is `NaN`. -/
def strToNumber (s : String) : JSNum :=
  let cs1 := (s.toList.dropWhile Char.isWhitespace).reverse.dropWhile Char.isWhitespace
  let cs := cs1.reverse
  if cs.isEmpty then .num 0
  else
    let signAndRest : ℚ × List Char :=
      match cs with
      | '-' :: r => (-1, r)
      | '+' :: r => (1, r)
      | _ => (1, cs)
    let sign := signAndRest.1
    let cs2 := signAndRest.2
    let ip := cs2.takeWhile Char.isDigit
    let cs3 := cs2.dropWhile Char.isDigit
    let fracAndRest : List Char × List Char :=
      match cs3 with
      | '.' :: r => (r.takeWhile Char.isDigit, r.dropWhile Char.isDigit)
      | _ => ([], cs3)
    let fp := fracAndRest.1
    let cs4 := fracAndRest.2
    if ip.isEmpty && fp.isEmpty then .nan
    else
      let mant : ℚ := (digitsToNat ip : ℚ) + (digitsToNat fp : ℚ) / (10 : ℚ) ^ fp.length
      match cs4 with
      | [] => .num (sign * mant)
      | c :: r =>
          if c = 'e' ∨ c = 'E' then
            let esAndRest : ℤ × List Char :=
              match r with
              | '-' :: r2 => (-1, r2)
              | '+' :: r2 => (1, r2)
              | _ => (1, r)
            let ed := esAndRest.2.takeWhile Char.isDigit
            let rest := esAndRest.2.dropWhile Char.isDigit
            if ed.isEmpty ∨ ¬ rest.isEmpty then .nan
            else .num (sign * mant * (10 : ℚ) ^ (esAndRest.1 * (digitsToNat ed : ℤ)))
          else .nan

/-- Convert a boolean to its JavaScript numeric value. -/
def boolNum (b : Bool) : JSNum := if b then .num 1 else .num 0

/-- JavaScript loose equality (`==`) restricted to the value domain of
the language: same-type comparison is direct; a boolean is converted to
its number first; a number and a string compare after `ToNumber` on the
string. -/
def jsEq : Value → Value → Bool
  | .num a, .num b => JSNum.numEq a b
  | .str a, .str b => a == b
  | .bool a, .bool b => a == b
  | .num a, .str s => JSNum.numEq a (strToNumber s)
  | .str s, .num b => JSNum.numEq (strToNumber s) b
  | .bool a, .num b => JSNum.numEq (boolNum a) b
  | .num a, .bool b => JSNum.numEq a (boolNum b)
  | .bool a, .str s => JSNum.numEq (boolNum a) (strToNumber s)
  | .str s, .bool b => JSNum.numEq (strToNumber s) (boolNum b)

/-! ## Tokenizer (`src/tokenizer.ts`) -/

/-- The token kinds of `TokenType` in `src/types.ts` (the `FUNCTION`
kind is declared but never produced). -/
inductive TokenType where
  | number
  | string
  | boolean
  | identifier
  | operator
  | parenOpen
  | parenClose
  | comma
  | eof
deriving DecidableEq, Repr

/-- A token: kind, payload value and source position (index into the
trimmed input). -/
structure Token where
  type : TokenType
  value : Value
  position : Nat
deriving DecidableEq, Repr

/-- Character class `[0-9.]` used by `Tokenizer.number`. -/
def numChar (c : Char) : Bool := c.isDigit || c == '.'

/-- Character class `[a-zA-Z0-9_.]` of identifier continuation
characters. -/
def identChar (c : Char) : Bool := c.isAlpha || c.isDigit || c == '_' || c == '.'

/-- Character class `[+\-*/%<>=!]` of operator starters. -/
def opChar (c : Char) : Bool :=
  c == '+' || c == '-' || c == '*' || c == '/' || c == '%' ||
  c == '<' || c == '>' || c == '=' || c == '!'

/-- `Tokenizer.string` after the opening quote: collect characters until
the matching quote, a backslash escaping exactly the next character; an
unterminated string consumes to end of input.  Returns the string body
and the remaining characters (past the closing quote when present). -/
def readStrBody (q : Char) : List Char → List Char × List Char
  | [] => ([], [])
  | c :: rest =>
      if c = q then ([], rest)
      else if c = '\\' then
        match rest with
        | [] => ([], [])
        | c2 :: rest2 =>
            let p := readStrBody q rest2
            (c2 :: p.1, p.2)
      else
        let p := readStrBody q rest
        (c :: p.1, p.2)



/-- The negative-number fusion test of `Tokenizer.tokenize`: the token
list is in reverse order of emission, so its head is the most recently
emitted token (`tokens[tokens.length - 1]` in the source). -/
def fusesNeg (acc : List Token) : Bool :=
  match acc with
  | [] => true
  | t :: _ =>
      t.type == .parenOpen || t.type == .operator || t.type == .comma

/-- One- or two-character operator reading (`Tokenizer.operator`):
`==`, `!=`, `>=`, `<=` fuse, everything else is a single character.
Returns the operator spelling and the remaining characters. -/
def readOperator (c : Char) (rest : List Char) : String × List Char :=
  match rest with
  | c2 :: rest2 =>
      if (c = '=' ∧ c2 = '=') ∨ (c = '!' ∧ c2 = '=') ∨
         (c = '>' ∧ c2 = '=') ∨ (c = '<' ∧ c2 = '=') then
        (String.mk [c, c2], rest2)
      else (String.mk [c], c2 :: rest2)
  | [] => (String.mk [c], [])


/-- Is the first character a digit?  (`this.peek()` test of the
negative-number fusion.) -/
def headIsDigit : List Char → Bool
  | d :: _ => d.isDigit
  | [] => false

/-- The scanning loop of `Tokenizer.tokenize`.  `acc` holds the emitted
tokens in reverse order; `pos` is the index of the current character in
the trimmed input.  Unknown characters are skipped (their diagnostic is
a side effect outside the model); the final end-of-input token is
appended when the characters run out.  The `fuel` parameter makes the
recursion structural; every step consumes at least one character, so the
budget `length + 1` passed by `tokenize` is never exhausted (and the
exhaustion branch is chosen to coincide with normal termination). -/
def tokLoop : Nat → List Char → Nat → List Token → List Token
  | 0, _, pos, acc => (⟨.eof, .str "", pos⟩ :: acc).reverse
  | _ + 1, [], pos, acc => (⟨.eof, .str "", pos⟩ :: acc).reverse
  | fuel + 1, c :: rest, pos, acc =>
      if c.isWhitespace then
        tokLoop fuel rest (pos + 1) acc
      else if c.isDigit then
        let rest2 := (c :: rest).dropWhile numChar
        let numStr := (c :: rest).takeWhile numChar
        tokLoop fuel rest2 (pos + ((c :: rest).length - rest2.length))
          (⟨.number, .num (parseFloat numStr), pos⟩ :: acc)
      else if c = '-' ∧ headIsDigit rest ∧ fusesNeg acc then
        let rest2 := rest.dropWhile numChar
        let numStr := rest.takeWhile numChar
        tokLoop fuel rest2 (pos + ((c :: rest).length - rest2.length))
          (⟨.number, .num (JSNum.neg (parseFloat numStr)), pos + 1⟩ :: acc)
      else if c = '"' ∨ c = '\'' then
        let p := readStrBody c rest
        tokLoop fuel p.2 (pos + ((c :: rest).length - p.2.length))
          (⟨.string, .str (String.mk p.1), pos⟩ :: acc)
      else if c.isAlpha ∨ c = '_' then
        let rest2 := (c :: rest).dropWhile identChar
        let idStr := (c :: rest).takeWhile identChar
        let tok : Token :=
          if idStr = ['t', 'r', 'u', 'e'] then ⟨.boolean, .bool true, pos⟩
          else if idStr = ['f', 'a', 'l', 's', 'e'] then ⟨.boolean, .bool false, pos⟩
          else ⟨.identifier, .str (String.mk idStr), pos⟩
        tokLoop fuel rest2 (pos + ((c :: rest).length - rest2.length)) (tok :: acc)
      else if c = '(' then
        tokLoop fuel rest (pos + 1) (⟨.parenOpen, .str "(", pos⟩ :: acc)
      else if c = ')' then
        tokLoop fuel rest (pos + 1) (⟨.parenClose, .str ")", pos⟩ :: acc)
      else if c = ',' then
        tokLoop fuel rest (pos + 1) (⟨.comma, .str ",", pos⟩ :: acc)
      else if opChar c then
        let p := readOperator c rest
        tokLoop fuel p.2 (pos + ((c :: rest).length - p.2.length))
          (⟨.operator, .str p.1, pos⟩ :: acc)
      else
        tokLoop fuel rest (pos + 1) acc

/-- `Tokenizer.tokenize`: trim the input, scan it, and append the
end-of-input token. -/
def tokenize (input : String) : List Token :=
  let cs := ((input.toList.dropWhile Char.isWhitespace).reverse.dropWhile
    Char.isWhitespace).reverse
  tokLoop (cs.length + 1) cs 0 []

/-! ## Evaluator (`src/evaluator.ts`, re-exported through `src/parser.ts`) -/

/-- The throw sites of the evaluator.  `outOfFuel` is an artifact of the
embedding's explicit recursion bound; the entry points pass a budget
large enough that it is never produced on their inputs. -/
inductive EvalErr where
  | undefinedVariable (name : String)
  | undefinedFunction (name : String)
  | unexpectedToken (t : TokenType) (position : Nat)
  | unknownOperator (op : String)
  | outOfFuel
deriving DecidableEq, Repr

/-- The environment of one evaluation: the (already merged) variables
map and the functions map, looked up by exact name. -/
structure Env where
  vars : List (String × Value)
  functions : List (String × (List Value → Value))

/-- `ExpressionEvaluator.toBool`: boolean passthrough, a number is true
iff it is not (strictly) equal to `0` (so `NaN` and the infinities are
true), a string is true iff nonempty. -/
def toBool : Value → Bool
  | .bool b => b
  | .num n =>
      match n with
      | .num q => decide (q ≠ 0)
      | _ => true
  | .str s => decide (0 < s.length)

/-- `ExpressionEvaluator.toNumber`: number passthrough, booleans map to
`1`/`0`, strings go through `parseFloat` with `NaN` replaced by `0`. -/
def toNumber : Value → JSNum
  | .num n => n
  | .bool b => boolNum b
  | .str s =>
      match parseFloat s.toList with
      | .nan => .num 0
      | n => n

/-- The string payload of a token (operators and identifiers always
carry one). -/
def tokStr (t : Token) : String :=
  match t.value with
  | .str s => s
  | _ => ""

/-- Does the token stream start with an identifier token of the given
spelling?  (The `or`/`and`/`not` keyword tests.) -/
def isIdentTok (ts : List Token) (name : String) : Bool :=
  match ts with
  | t :: _ => t.type == .identifier && t.value == .str name
  | [] => false

/-- Does the token stream start with a token of the given kind? -/
def headHasType : List Token → TokenType → Bool
  | t :: _, tt => t.type == tt
  | [], _ => false

/-- The comparison-operator membership test of `parseComparison`. -/
def isCompOp (s : String) : Bool :=
  s == "==" || s == "!=" || s == ">" || s == "<" || s == ">=" || s == "<="

/-- `ExpressionEvaluator.compare`: equality operators compare the raw
values by JavaScript loose equality; ordering operators coerce both
sides through `toNumber` first. -/
def compare (left : Value) (op : String) (right : Value) : Except EvalErr Value :=
  if op = "==" then .ok (.bool (jsEq left right))
  else if op = "!=" then .ok (.bool (!jsEq left right))
  else if op = ">" then .ok (.bool (JSNum.lt (toNumber right) (toNumber left)))
  else if op = "<" then .ok (.bool (JSNum.lt (toNumber left) (toNumber right)))
  else if op = ">=" then .ok (.bool (JSNum.le (toNumber right) (toNumber left)))
  else if op = "<=" then .ok (.bool (JSNum.le (toNumber left) (toNumber right)))
  else .error (.unknownOperator op)

mutual

/-- `ExpressionEvaluator.parseOr`: parse one `parseAnd` operand, then
fold further `or`-separated operands left to right. -/
def parseOr : Nat → Env → List Token → Except EvalErr (Value × List Token)
  | 0, _, _ => .error .outOfFuel
  | fuel + 1, env, ts =>
      match parseAnd fuel env ts with
      | .error e => .error e
      | .ok (left, ts1) => parseOrLoop fuel env left ts1

/-- The `while` loop of `parseOr`: on each `or`, the right operand is
parsed (and so evaluated) unconditionally, then the running value
becomes `toBool left || toBool right`. -/
def parseOrLoop : Nat → Env → Value → List Token → Except EvalErr (Value × List Token)
  | 0, _, _, _ => .error .outOfFuel
  | fuel + 1, env, left, ts =>
      if isIdentTok ts "or" then
        match parseAnd fuel env (ts.drop 1) with
        | .error e => .error e
        | .ok (right, ts1) =>
            parseOrLoop fuel env (.bool (toBool left || toBool right)) ts1
      else .ok (left, ts)

/-- `ExpressionEvaluator.parseAnd`. -/
def parseAnd : Nat → Env → List Token → Except EvalErr (Value × List Token)
  | 0, _, _ => .error .outOfFuel
  | fuel + 1, env, ts =>
      match parseNot fuel env ts with
      | .error e => .error e
      | .ok (left, ts1) => parseAndLoop fuel env left ts1

/-- The `while` loop of `parseAnd`: both operands evaluated
unconditionally, combined with `toBool left && toBool right`. -/
def parseAndLoop : Nat → Env → Value → List Token → Except EvalErr (Value × List Token)
  | 0, _, _, _ => .error .outOfFuel
  | fuel + 1, env, left, ts =>
      if isIdentTok ts "and" then
        match parseNot fuel env (ts.drop 1) with
        | .error e => .error e
        | .ok (right, ts1) =>
            parseAndLoop fuel env (.bool (toBool left && toBool right)) ts1
      else .ok (left, ts)

/-- `ExpressionEvaluator.parseNot`: the `not` prefix stacks; otherwise
fall through to `parseComparison`. -/
def parseNot : Nat → Env → List Token → Except EvalErr (Value × List Token)
  | 0, _, _ => .error .outOfFuel
  | fuel + 1, env, ts =>
      if isIdentTok ts "not" then
        match parseNot fuel env (ts.drop 1) with
        | .error e => .error e
        | .ok (v, ts1) => .ok (.bool (!toBool v), ts1)
      else parseComparison fuel env ts

/-- `ExpressionEvaluator.parseComparison`: one additive expression and
at most one comparison operator with one more additive expression;
comparisons do not chain. -/
def parseComparison : Nat → Env → List Token → Except EvalErr (Value × List Token)
  | 0, _, _ => .error .outOfFuel
  | fuel + 1, env, ts =>
      match parseAdditive fuel env ts with
      | .error e => .error e
      | .ok (left, ts1) =>
          match ts1 with
          | t :: rest =>
              if t.type == .operator && isCompOp (tokStr t) then
                match parseAdditive fuel env rest with
                | .error e => .error e
                | .ok (right, ts2) =>
                    match compare left (tokStr t) right with
                    | .error e => .error e
                    | .ok v => .ok (v, ts2)
              else .ok (left, ts1)
          | [] => .ok (left, ts1)

/-- `ExpressionEvaluator.parseAdditive`. -/
def parseAdditive : Nat → Env → List Token → Except EvalErr (Value × List Token)
  | 0, _, _ => .error .outOfFuel
  | fuel + 1, env, ts =>
      match parseMultiplicative fuel env ts with
      | .error e => .error e
      | .ok (left, ts1) => parseAdditiveLoop fuel env left ts1

/-- The `while` loop of `parseAdditive`: left-associative `+`/`-`, both
operands coerced through `toNumber`. -/
def parseAdditiveLoop : Nat → Env → Value → List Token → Except EvalErr (Value × List Token)
  | 0, _, _, _ => .error .outOfFuel
  | fuel + 1, env, left, ts =>
      match ts with
      | t :: rest =>
          if t.type == .operator && (tokStr t == "+" || tokStr t == "-") then
            match parseMultiplicative fuel env rest with
            | .error e => .error e
            | .ok (right, ts1) =>
                let v :=
                  if tokStr t == "+" then JSNum.add (toNumber left) (toNumber right)
                  else JSNum.sub (toNumber left) (toNumber right)
                parseAdditiveLoop fuel env (.num v) ts1
          else .ok (left, ts)
      | [] => .ok (left, ts)

/-- `ExpressionEvaluator.parseMultiplicative`. -/
def parseMultiplicative : Nat → Env → List Token → Except EvalErr (Value × List Token)
  | 0, _, _ => .error .outOfFuel
  | fuel + 1, env, ts =>
      match parsePrimary fuel env ts with
      | .error e => .error e
      | .ok (left, ts1) => parseMultiplicativeLoop fuel env left ts1

/-- The `while` loop of `parseMultiplicative`: left-associative
`*`/`/`/`%`, both operands coerced through `toNumber`. -/
def parseMultiplicativeLoop : Nat → Env → Value → List Token → Except EvalErr (Value × List Token)
  | 0, _, _, _ => .error .outOfFuel
  | fuel + 1, env, left, ts =>
      match ts with
      | t :: rest =>
          if t.type == .operator &&
             (tokStr t == "*" || tokStr t == "/" || tokStr t == "%") then
            match parsePrimary fuel env rest with
            | .error e => .error e
            | .ok (right, ts1) =>
                let v :=
                  if tokStr t == "*" then JSNum.mul (toNumber left) (toNumber right)
                  else if tokStr t == "/" then JSNum.div (toNumber left) (toNumber right)
                  else JSNum.mod (toNumber left) (toNumber right)
                parseMultiplicativeLoop fuel env (.num v) ts1
          else .ok (left, ts)
      | [] => .ok (left, ts)

/-- `ExpressionEvaluator.parsePrimary`: literals evaluate to their
payload; a parenthesized subexpression tolerates a missing closing
parenthesis; an identifier followed by `(` is a function call, otherwise
a variable lookup; anything else is an unexpected token.  (A token
stream produced by `tokenize` always ends in `EOF`, so the stream is
never empty; the empty case is mapped to the unexpected-token
failure.) -/
def parsePrimary : Nat → Env → List Token → Except EvalErr (Value × List Token)
  | 0, _, _ => .error .outOfFuel
  | fuel + 1, env, ts =>
      match ts with
      | [] => .error (.unexpectedToken .eof 0)
      | t :: rest =>
          match t.type with
          | .number => .ok (t.value, rest)
          | .string => .ok (t.value, rest)
          | .boolean => .ok (t.value, rest)
          | .parenOpen =>
              match parseOr fuel env rest with
              | .error e => .error e
              | .ok (v, ts1) =>
                  if headHasType ts1 .parenClose then .ok (v, ts1.drop 1)
                  else .ok (v, ts1)
          | .identifier =>
              let name := tokStr t
              if headHasType rest .parenOpen then
                parseFunctionCall fuel env name rest
              else
                match List.lookup name env.vars with
                | some v => .ok (v, rest)
                | none => .error (.undefinedVariable name)
          | _ => .error (.unexpectedToken t.type t.position)

/-- `ExpressionEvaluator.parseFunctionCall`: consume the opening
parenthesis, collect the arguments, consume the closing parenthesis when
present, then look up and invoke the function. -/
def parseFunctionCall : Nat → Env → String → List Token → Except EvalErr (Value × List Token)
  | 0, _, _, _ => .error .outOfFuel
  | fuel + 1, env, name, ts =>
      match parseArgs fuel env [] (ts.drop 1) with
      | .error e => .error e
      | .ok (args, ts1) =>
          let ts2 := if headHasType ts1 .parenClose then ts1.drop 1 else ts1
          match List.lookup name env.functions with
          | some f => .ok (f args, ts2)
          | none => .error (.undefinedFunction name)

/-- The argument loop of `parseFunctionCall`: collect `parseOr`
expressions until a closing parenthesis or end of input, consuming a
comma after an argument only when one is present. -/
def parseArgs : Nat → Env → List Value → List Token → Except EvalErr (List Value × List Token)
  | 0, _, _, _ => .error .outOfFuel
  | fuel + 1, env, args, ts =>
      match ts with
      | [] => .ok (args, ts)
      | t :: _ =>
          if t.type == .parenClose || t.type == .eof then .ok (args, ts)
          else
            match parseOr fuel env ts with
            | .error e => .error e
            | .ok (v, ts1) =>
                let ts2 := if headHasType ts1 .comma then ts1.drop 1 else ts1
                parseArgs fuel env (args ++ [v]) ts2

end

/-- The fuel budget the entry points give the recursive-descent pass;
ample for any stream of this length. -/
def fuelFor (tokens : List Token) : Nat := 10 * tokens.length + 10

/-- `ExpressionEvaluator.evaluate`: run `parseOr` from the first token
and return its value, ignoring any unconsumed trailing tokens. -/
def ExpressionEvaluator.evaluate (env : Env) (tokens : List Token) : Except EvalErr Value :=
  match parseOr (fuelFor tokens) env tokens with
  | .error e => .error e
  | .ok (v, _) => .ok v

/-! ## Facade (`src/parser.ts`) -/

/-- The standalone helper `evaluate`: tokenize and run with an empty
functions map.  It has no empty-expression special case. -/
def evaluate (expression : String) (vars : List (String × Value)) :
    Except EvalErr Value :=
  ExpressionEvaluator.evaluate ⟨vars, []⟩ (tokenize expression)

/-- The standalone helper `compile`: tokenize once, return a reusable
invocable that re-runs a fresh recursive-descent pass over those tokens
on every invocation. -/
def compile (expression : String) : List (String × Value) → Except EvalErr Value :=
  let tokens := tokenize expression
  fun vars => ExpressionEvaluator.evaluate ⟨vars, []⟩ tokens

/-- The `Parser` facade: caller-registered functions and constants. -/
structure Parser where
  functions : List (String × (List Value → Value)) := []
  consts : List (String × Value) := []

/-- A failure surfaced by the facade: the original expression text
together with the underlying evaluator error. -/
inductive EvalFailure where
  | wrapped (expression : String) (inner : EvalErr)
deriving DecidableEq, Repr

/-- `Parser.parse(expression).evaluate(variables)`: the empty expression
returns `true` without tokenizing; otherwise constants are merged under
the variables (variables win on collision), the expression is
re-tokenized, a fresh evaluator runs, and failures are wrapped with the
expression text. -/
def Parser.parseEvaluate (self : Parser) (expression : String)
    (vars : List (String × Value)) : Except EvalFailure Value :=
  if expression = "" then .ok (.bool true)
  else
    let allVars := vars ++ self.consts
    match ExpressionEvaluator.evaluate ⟨allVars, self.functions⟩ (tokenize expression) with
    | .ok v => .ok v
    | .error e => .error (.wrapped expression e)

/-- `Parser.evaluate`: shorthand for `parse(expression).evaluate`. -/
def Parser.evaluate (self : Parser) (expression : String)
    (vars : List (String × Value)) : Except EvalFailure Value :=
  self.parseEvaluate expression vars

end SafeExprEval

/-! ## Theorems -/

namespace SafeExprEval

theorem tokLoop_step (fuel : Nat) (c : Char) (rest : List Char) (pos : Nat)
    (acc : List Token) :
    ∃ (cs2 : List Char) (pos2 : Nat) (newToks : List Token),
      tokLoop (fuel + 1) (c :: rest) pos acc = tokLoop fuel cs2 pos2 (newToks ++ acc) ∧
      ∀ t ∈ newToks, t.type ≠ .eof := by
  rw [tokLoop.eq_3]
  by_cases h1 : c.isWhitespace = true
  · rw [if_pos h1]
    exact ⟨rest, pos + 1, [], rfl, by simp⟩
  rw [if_neg h1]
  by_cases h2 : c.isDigit = true
  · rw [if_pos h2]
    exact ⟨_, _, [_], rfl, by simp⟩
  rw [if_neg h2]
  by_cases h3 : c = '-' ∧ headIsDigit rest = true ∧ fusesNeg acc = true
  · rw [if_pos h3]
    exact ⟨_, _, [_], rfl, by simp⟩
  rw [if_neg h3]
  by_cases h4 : c = '"' ∨ c = '\''
  · rw [if_pos h4]
    exact ⟨_, _, [_], rfl, by simp⟩
  rw [if_neg h4]
  by_cases h5 : c.isAlpha = true ∨ c = '_'
  · rw [if_pos h5]
    refine ⟨_, _, [_], rfl, ?_⟩
    intro t ht
    simp only [List.mem_singleton] at ht
    subst ht
    split
    · simp
    · split <;> simp
  rw [if_neg h5]
  by_cases h6 : c = '('
  · rw [if_pos h6]
    exact ⟨_, _, [_], rfl, by simp⟩
  rw [if_neg h6]
  by_cases h7 : c = ')'
  · rw [if_pos h7]
    exact ⟨_, _, [_], rfl, by simp⟩
  rw [if_neg h7]
  by_cases h8 : c = ','
  · rw [if_pos h8]
    exact ⟨_, _, [_], rfl, by simp⟩
  rw [if_neg h8]
  by_cases h9 : opChar c = true
  · rw [if_pos h9]
    exact ⟨_, _, [_], rfl, by simp⟩
  rw [if_neg h9]
  exact ⟨rest, pos + 1, [], rfl, by simp⟩

theorem tokLoop_trailing_eof (fuel : Nat) :
    ∀ (cs : List Char) (pos : Nat) (acc : List Token),
    ∃ (mid : List Token) (p : Nat),
      tokLoop fuel cs pos acc = acc.reverse ++ mid ++ [⟨.eof, .str "", p⟩] ∧
      ∀ t ∈ mid, t.type ≠ .eof := by
  induction fuel with
  | zero =>
      intro cs pos acc
      exact ⟨[], pos, by simp [tokLoop], by simp⟩
  | succ fuel ih =>
      intro cs pos acc
      match cs with
      | [] => exact ⟨[], pos, by simp [tokLoop], by simp⟩
      | c :: rest =>
          obtain ⟨cs2, pos2, newToks, heq, hnew⟩ := tokLoop_step fuel c rest pos acc
          obtain ⟨mid, p, heq2, hmid⟩ := ih cs2 pos2 (newToks ++ acc)
          refine ⟨newToks.reverse ++ mid, p, ?_, ?_⟩
          · rw [heq, heq2]
            simp [List.append_assoc]
          · intro t ht
            rcases List.mem_append.mp ht with h | h
            · exact hnew t (List.mem_reverse.mp h)
            · exact hmid t h

/-- C8: `tokenize` is total (a Lean function) and deterministic (a
function of its argument alone); its output always ends with exactly one
end-of-input token and contains no other end-of-input token. -/
theorem tokenize_total_trailing_eof (s : String) :
    ∃ (pre : List Token) (p : Nat),
      tokenize s = pre ++ [⟨.eof, .str "", p⟩] ∧ ∀ t ∈ pre, t.type ≠ .eof := by
  obtain ⟨mid, p, heq, hmid⟩ :=
    tokLoop_trailing_eof
      ((((s.toList.dropWhile Char.isWhitespace).reverse.dropWhile
          Char.isWhitespace).reverse).length + 1)
      (((s.toList.dropWhile Char.isWhitespace).reverse.dropWhile
          Char.isWhitespace).reverse) 0 []
  refine ⟨mid, p, ?_, hmid⟩
  rw [tokenize]
  simpa using heq

/-- C5: a `-` immediately followed by a digit is fused into one negated
number token exactly when the previous token is absent, an open
parenthesis, an operator or a comma (`fusesNeg` over the reversed
emission list); in any other context the `-` is emitted as a binary
operator token, so `5-3` is `2` and `(-3) + 5` is `2`. -/
theorem minus_fusion_rule :
    (∀ (fuel : Nat) (pos : Nat) (acc : List Token) (d : Char) (rest : List Char),
        d.isDigit = true → fusesNeg acc = true →
        tokLoop (fuel + 1) ('-' :: d :: rest) pos acc =
          tokLoop fuel ((d :: rest).dropWhile numChar)
            (pos + (('-' :: d :: rest).length -
              ((d :: rest).dropWhile numChar).length))
            (⟨.number, .num (JSNum.neg (parseFloat ((d :: rest).takeWhile numChar))),
               pos + 1⟩ :: acc)) ∧
    (∀ (fuel : Nat) (pos : Nat) (acc : List Token) (d : Char) (rest : List Char),
        d.isDigit = true → fusesNeg acc = false →
        tokLoop (fuel + 1) ('-' :: d :: rest) pos acc =
          tokLoop fuel (d :: rest) (pos + 1)
            (⟨.operator, .str "-", pos⟩ :: acc)) ∧
    fusesNeg [] = true ∧
    (∀ (t : Token) (acc : List Token), fusesNeg (t :: acc) =
        (t.type == .parenOpen || t.type == .operator || t.type == .comma)) ∧
    evaluate "5-3" [] = .ok (.num (.num 2)) ∧
    evaluate "(-3) + 5" [] = .ok (.num (.num 2)) := by
  refine ⟨?_, ?_, rfl, fun t acc => rfl, by with_unfolding_all rfl,
    by with_unfolding_all rfl⟩
  · intro fuel pos acc d rest hd hacc
    rw [tokLoop.eq_3]
    rw [if_neg (by decide), if_neg (by decide),
      if_pos ⟨rfl, by simpa [headIsDigit] using hd, hacc⟩]
  · intro fuel pos acc d rest hd hacc
    rw [tokLoop.eq_3]
    rw [if_neg (by decide), if_neg (by decide), if_neg (by simp [hacc]),
      if_neg (by decide), if_neg (by decide), if_neg (by decide),
      if_neg (by decide), if_neg (by decide), if_pos (by decide)]
    show tokLoop fuel (d :: rest)
        (pos + (('-' :: d :: rest).length - (d :: rest).length))
        (⟨.operator, .str "-", pos⟩ :: acc) = _
    have hlen : ('-' :: d :: rest).length - (d :: rest).length = 1 := by
      simp only [List.length_cons]
      omega
    rw [hlen]

end SafeExprEval

namespace SafeExprEval

/-- C1: standard precedence and left-associativity of the arithmetic
levels of the evaluator. -/
theorem arithmetic_precedence_associativity :
    evaluate "2 + 3 * 4" [] = .ok (.num (.num 14)) ∧
    evaluate "(2 + 3) * 4" [] = .ok (.num (.num 20)) ∧
    evaluate "100 - 50 - 25" [] = .ok (.num (.num 25)) ∧
    evaluate "100 / 10 / 2" [] = .ok (.num (.num 5)) := by
  refine ⟨?_, ?_, ?_, ?_⟩ <;> with_unfolding_all rfl

/-- C2 (counterexample): `"10" > "9"` evaluates to `true`, not `false`,
because `parseFloat` parses both operand strings successfully. -/
theorem ordering_coercion_counterexample :
    evaluate "\"10\" > \"9\"" [] = .ok (.bool true) ∧
    ¬ (evaluate "\"10\" > \"9\"" [] = .ok (.bool false)) := by
  constructor
  · with_unfolding_all rfl
  · intro h
    rw [show evaluate "\"10\" > \"9\"" [] = Except.ok (Value.bool true) from
      by with_unfolding_all rfl] at h
    simp at h

/-- C2 (amended): equality compares raw values by loose equality
(`true == 1` is `true`, equal-`toNumber` strings can still compare
unequal), ordering always coerces through `toNumber` (`"b" > "a"` is
`false`); but `"10" > "9"` is `true` since both strings parse as
numbers. -/
theorem comparison_coercion_semantics :
    (∀ l r : Value, compare l "==" r = .ok (.bool (jsEq l r))) ∧
    (∀ l r : Value, compare l "!=" r = .ok (.bool (!jsEq l r))) ∧
    (∀ l r : Value, compare l ">" r =
        .ok (.bool (JSNum.lt (toNumber r) (toNumber l)))) ∧
    (∀ l r : Value, compare l "<" r =
        .ok (.bool (JSNum.lt (toNumber l) (toNumber r)))) ∧
    evaluate "true == 1" [] = .ok (.bool true) ∧
    evaluate "\"b\" > \"a\"" [] = .ok (.bool false) ∧
    toNumber (.str "b") = toNumber (.str "a") ∧
    evaluate "\"b\" == \"a\"" [] = .ok (.bool false) ∧
    evaluate "\"10\" > \"9\"" [] = .ok (.bool true) := by
  refine ⟨fun l r => rfl, fun l r => rfl, fun l r => rfl, fun l r => rfl,
    ?_, ?_, ?_, ?_, ?_⟩ <;> with_unfolding_all rfl

/-- C3: `or`/`and` evaluate the right operand unconditionally: a failure
on the right aborts the evaluation regardless of the left value, and the
combined result is the Boolean `toBool l || toBool r` (resp. `&&`). -/
theorem logical_operators_no_short_circuit :
    (∀ (fuel : Nat) (env : Env) (l : Value) (t : Token) (rest : List Token)
        (e : EvalErr), t.type = .identifier → t.value = .str "or" →
        parseAnd fuel env rest = .error e →
        parseOrLoop (fuel + 1) env l (t :: rest) = .error e) ∧
    (∀ (fuel : Nat) (env : Env) (l : Value) (t : Token) (rest : List Token)
        (e : EvalErr), t.type = .identifier → t.value = .str "and" →
        parseNot fuel env rest = .error e →
        parseAndLoop (fuel + 1) env l (t :: rest) = .error e) ∧
    evaluate "true or missing" [] = .error (.undefinedVariable "missing") ∧
    evaluate "false and missing" [] = .error (.undefinedVariable "missing") ∧
    evaluate "2 or 0" [] = .ok (.bool true) ∧
    evaluate "0 and 2" [] = .ok (.bool false) := by
  refine ⟨?_, ?_, by with_unfolding_all rfl, by with_unfolding_all rfl,
    by with_unfolding_all rfl, by with_unfolding_all rfl⟩
  · intro fuel env l t rest e ht hv he
    simp [parseOrLoop, isIdentTok, ht, hv, he]
  · intro fuel env l t rest e ht hv he
    simp [parseAndLoop, isIdentTok, ht, hv, he]

theorem logical_operators_no_short_circuit_witness :
    parseOrLoop 21 ⟨[], []⟩ (.bool true)
        (⟨.identifier, .str "or", 0⟩ :: tokenize "missing") =
      .error (.undefinedVariable "missing") ∧
    parseAndLoop 21 ⟨[], []⟩ (.bool false)
        (⟨.identifier, .str "and", 0⟩ :: tokenize "missing") =
      .error (.undefinedVariable "missing") :=
  ⟨logical_operators_no_short_circuit.1 20 ⟨[], []⟩ (.bool true)
      ⟨.identifier, .str "or", 0⟩ (tokenize "missing") (.undefinedVariable "missing")
      rfl rfl (by with_unfolding_all rfl),
    logical_operators_no_short_circuit.2.1 20 ⟨[], []⟩ (.bool false)
      ⟨.identifier, .str "and", 0⟩ (tokenize "missing") (.undefinedVariable "missing")
      rfl rfl (by with_unfolding_all rfl)⟩

/-- C4: the comparison level consumes at most one comparison operator:
`1 < 2 < 3` parses as the comparison `1 < 2` (Boolean `true`), the
second `<` and the `3` remain unconsumed, and the top-level entry point
silently ignores them rather than raising an error. -/
theorem comparison_does_not_chain :
    parseOr (fuelFor (tokenize "1 < 2 < 3")) ⟨[], []⟩ (tokenize "1 < 2 < 3") =
      .ok (.bool true,
        [⟨.operator, .str "<", 6⟩, ⟨.number, .num (.num 3), 8⟩,
         ⟨.eof, .str "", 9⟩]) ∧
    evaluate "1 < 2 < 3" [] = .ok (.bool true) := by
  constructor <;> with_unfolding_all rfl

/-- C6: a compiled expression and direct evaluation agree on every
expression and every pair of variable maps; the compiled form shares no
state between invocations (it is a pure function of the tokens and the
supplied variables). -/
theorem compile_matches_evaluate (e : String)
    (v1 v2 : List (String × Value)) :
    compile e v1 = evaluate e v1 ∧ compile e v2 = evaluate e v2 :=
  ⟨rfl, rfl⟩

/-- C7 (counterexample): the standalone `evaluate` helper does not
special-case the empty expression: it fails with an unexpected
end-of-input token instead of returning `true`. -/
theorem empty_expression_counterexample :
    evaluate "" [] = .error (.unexpectedToken .eof 0) ∧
    ¬ (evaluate "" [] = .ok (.bool true)) := by
  constructor
  · with_unfolding_all rfl
  · intro h
    rw [show evaluate "" [] = Except.error (EvalErr.unexpectedToken .eof 0) from
      by with_unfolding_all rfl] at h
    simp at h

/-- C7 (amended): the facade entry points `Parser.parse("").evaluate`
and `Parser.evaluate("")` return Boolean `true` for the empty expression
(before any tokenization); the standalone `evaluate` helper has no such
special case and fails with an unexpected end-of-input token. -/
theorem empty_expression_behavior :
    (∀ (p : Parser) (vars : List (String × Value)),
        p.parseEvaluate "" vars = .ok (.bool true)) ∧
    (∀ (p : Parser) (vars : List (String × Value)),
        Parser.evaluate p "" vars = .ok (.bool true)) ∧
    evaluate "" [] = .error (.unexpectedToken .eof 0) :=
  ⟨fun p vars => rfl, fun p vars => rfl, by with_unfolding_all rfl⟩

/-- C9 (counterexample): tokenizing `1.2.3` yields one number token
whose value is `1.2` (the longest prefix `parseFloat` accepts), not
`NaN`. -/
theorem malformed_literal_counterexample :
    tokenize "1.2.3" =
      [⟨.number, .num (.num (6 / 5)), 0⟩, ⟨.eof, .str "", 5⟩] ∧
    ¬ (tokenize "1.2.3" =
        [⟨.number, .num .nan, 0⟩, ⟨.eof, .str "", 5⟩]) := by
  constructor
  · with_unfolding_all rfl
  · intro h
    rw [show tokenize "1.2.3" =
        [⟨.number, .num (.num (6 / 5)), 0⟩, ⟨.eof, .str "", 5⟩] from
      by with_unfolding_all rfl] at h
    simp at h

/-- C9 (amended): a numeric literal with multiple dots is consumed as a
single number token without failing; its value is the longest prefix
`parseFloat` accepts (`1.2` for `1.2.3`), and `NaN` cannot arise because
a number token always starts with a digit. -/
theorem malformed_literal_lenient :
    tokenize "1.2.3" =
      [⟨.number, .num (.num (6 / 5)), 0⟩, ⟨.eof, .str "", 5⟩] := by
  with_unfolding_all rfl

/-- C10: function-call arguments are collected until a closing
parenthesis or end of input, a comma being consumed only when present:
missing separators, a trailing comma and a missing closing parenthesis
all still invoke the function with the arguments parsed so far. -/
theorem function_call_argument_collection (fn : List Value → Value) :
    ExpressionEvaluator.evaluate ⟨[], [("f", fn)]⟩ (tokenize "f(1 2)") =
      .ok (fn [.num (.num 1), .num (.num 2)]) ∧
    ExpressionEvaluator.evaluate ⟨[], [("f", fn)]⟩ (tokenize "f(1, 2,)") =
      .ok (fn [.num (.num 1), .num (.num 2)]) ∧
    ExpressionEvaluator.evaluate ⟨[], [("f", fn)]⟩ (tokenize "f(1, 2") =
      .ok (fn [.num (.num 1), .num (.num 2)]) := by
  refine ⟨?_, ?_, ?_⟩ <;> with_unfolding_all rfl

end SafeExprEval

namespace SafeExprEval

theorem minus_fusion_rule_witness :
    tokLoop 6 ['-', '3'] 0 [] =
      tokLoop 5 (('3' :: ([] : List Char)).dropWhile numChar)
        (0 + (('-' :: '3' :: ([] : List Char)).length -
          (('3' :: ([] : List Char)).dropWhile numChar).length))
        [⟨.number,
          .num (JSNum.neg (parseFloat (('3' :: ([] : List Char)).takeWhile numChar))),
          0 + 1⟩] ∧
    tokLoop 6 ['-', '3'] 0 [⟨.number, .num (.num 5), 0⟩] =
      tokLoop 5 ['3'] (0 + 1)
        [⟨.operator, .str "-", 0⟩, ⟨.number, .num (.num 5), 0⟩] :=
  ⟨minus_fusion_rule.1 5 0 [] '3' [] rfl rfl,
   minus_fusion_rule.2.1 5 0 [⟨.number, .num (.num 5), 0⟩] '3' [] rfl rfl⟩

end SafeExprEval
